import Mathlib

/-!
Verification of the habit-tracker application (src/app.py) against its
natural-language specification.  The data model (the two sqlite tables),
the streak engine, the store handlers wired to the Streamlit widgets, and
the Ollama coach client are embedded shallowly below; calendar dates are
embedded as integers (the ordinal of `datetime.date`), so that
`timedelta(days=1)` becomes the integer 1.
-/

/-- Row of the `habits` table: `class Habit(Base)` in app.py
(fields id, name, frequency). -/
structure Habit where
  id : Int
  name : String
  frequency : String
deriving Repr, DecidableEq

/-- Row of the `checkins` table: `class CheckIn(Base)` in app.py
(fields id, habit_id, day, done). -/
structure CheckIn where
  id : Int
  habit_id : Int
  day : Int
  done : Bool
deriving Repr, DecidableEq

/-- The persisted store: the two tables, each as its list of rows in
insertion (rowid) order. -/
structure Store where
  habits : List Habit
  checkins : List CheckIn
deriving Repr, DecidableEq

/-- Drop leading whitespace characters from a list of characters. -/
def dropWsLeft : List Char → List Char
  | [] => []
  | c :: rest => if c.isWhitespace then dropWsLeft rest else c :: rest

/-- Python `str.strip()`: remove leading and trailing whitespace.  (Embedded
directly on the character list so that it is executable by the kernel.) -/
def strip (s : String) : String :=
  ⟨(dropWsLeft (dropWsLeft s.data.reverse).reverse)⟩

/-- Ordering used by `order_by(CheckIn.day.desc())` in the streak query:
a row comes before another when its day is at least as late. -/
def dayGe (a b : CheckIn) : Prop := b.day ≤ a.day

instance : DecidableRel dayGe := fun a b => inferInstanceAs (Decidable (b.day ≤ a.day))

instance : IsTotal CheckIn dayGe := ⟨fun a b => le_total b.day a.day⟩

instance : IsTrans CheckIn dayGe := ⟨fun _ _ _ h1 h2 => le_trans h2 h1⟩

/-- History of one habit as delivered by
`db.query(CheckIn).filter_by(habit_id=habit.id).order_by(CheckIn.day.desc()).all()`
(app.py lines 246-251): the rows sorted by day, newest first (a stable sort;
ties are not ordered further by the query either). -/
def sortByDayDesc (history : List CheckIn) : List CheckIn :=
  List.insertionSort dayGe history

/-- Streak loop of app.py lines 253-261: walk the descending history keeping
an expected day that starts at today; a row on the expected day with
done = true counts and moves the expected day one back, anything else stops
the scan at once. -/
def streakLoop (expected_day : Int) : List CheckIn → Nat
  | [] => 0
  | c :: rest =>
    if c.day = expected_day ∧ c.done = true then streakLoop (expected_day - 1) rest + 1
    else 0

/-- Current streak of a habit: the descending-ordered query followed by the
loop, with today passed explicitly. -/
def streak (history : List CheckIn) (today : Int) : Nat :=
  streakLoop today (sortByDayDesc history)

/-- Total completions, `total_done = sum(1 for c in history if c.done)`
(app.py line 264). -/
def total_done (history : List CheckIn) : Nat :=
  history.foldl (fun acc c => if c.done then acc + 1 else acc) 0

/-- Days of the weekly calendar,
`week_days = [today - timedelta(days=i) for i in range(6, -1, -1)]`
(app.py line 281): the 7 consecutive days ending today, oldest first. -/
def week_days (today : Int) : List Int :=
  ((List.range 7).reverse).map (fun i => today - (i : Int))

/-- One cell of the weekly calendar (app.py lines 288-297): the first row of
the `checkins` table matching (habit_id, day); the cell shows done exactly
when such a row exists and its done flag is true (the ✅ cell is `true`, the
⬜ cell is `false`). -/
def dayCell (checkins : List CheckIn) (hid d : Int) : Bool :=
  match checkins.find? (fun c => c.habit_id == hid && c.day == d) with
  | some c => c.done
  | none => false

/-- Weekly calendar row of one habit (app.py lines 283-299): one cell per day
of `week_days`, oldest first. -/
def weekGrid (checkins : List CheckIn) (hid today : Int) : List Bool :=
  (week_days today).map (fun d => dayCell checkins hid d)

/-- Autoincremented primary key sqlite assigns to a new `habits` row:
one more than the largest existing id (and 1 on an empty table). -/
def nextHabitId (s : Store) : Int :=
  (s.habits.foldl (fun m h => max m h.id) 0) + 1

/-- Autoincremented primary key sqlite assigns to a new `checkins` row. -/
def nextCheckinId (s : Store) : Int :=
  (s.checkins.foldl (fun m c => max m c.id) 0) + 1

/-- Add-habit submit handler (app.py lines 186-191): on
`if submitted and habit_name.strip():` a habit row with the stripped name is
inserted and the success message is produced; an empty or whitespace-only
name falls through silently — no row, no message.  The returned pair is the
store after the interaction and the message shown, if any. -/
def habitFormSubmit (s : Store) (habit_name frequency : String) : Store × Option String :=
  if strip habit_name ≠ "" then
    ({ s with
        habits := s.habits ++
          [{ id := nextHabitId s, name := strip habit_name, frequency := frequency }] },
     some "Habit saved!")
  else (s, none)

/-- In-place mutation `checkin.done = False` (app.py line 227): rewrite the
first row matching (habit_id, day) — the row `.first()` returned — leaving
every other row untouched. -/
def setDoneFalseFirst : List CheckIn → Int → Int → List CheckIn
  | [], _, _ => []
  | c :: rest, hid, d =>
    if c.habit_id == hid && c.day == d then { c with done := false } :: rest
    else c :: setDoneFalseFirst rest hid d

/-- Daily check-in checkbox handler (app.py lines 209-228): look up the
habit's row for today; if the box is checked and no row exists, insert a row
with done = true; if the box is unchecked and a row exists, mutate that row's
done flag to false; in every other case (notably: box checked and a row
already exists) nothing is written. -/
def checkinHandler (s : Store) (hid today : Int) (done : Bool) : Store :=
  let checkin := s.checkins.find? (fun c => c.habit_id == hid && c.day == today)
  if done = true ∧ checkin = none then
    { s with
        checkins := s.checkins ++
          [{ id := nextCheckinId s, habit_id := hid, day := today, done := true }] }
  else if done = false ∧ checkin ≠ none then
    { s with checkins := setDoneFalseFirst s.checkins hid today }
  else s

/-- Delete-button handler (app.py lines 231-236):
`db.query(CheckIn).filter_by(habit_id=habit.id).delete()` followed by
`db.query(Habit).filter_by(id=habit.id).delete()` — every check-in row of the
habit goes, then the habit row itself. -/
def deleteHabitHandler (s : Store) (hid : Int) : Store :=
  { habits := s.habits.filter (fun h => !(h.id == hid)),
    checkins := s.checkins.filter (fun c => !(c.habit_id == hid)) }

/-- Store read `listCheckIns(habitId)`: the check-in rows of one habit, as by
`db.query(CheckIn).filter_by(habit_id=habit.id).all()`. -/
def listCheckIns (s : Store) (hid : Int) : List CheckIn :=
  s.checkins.filter (fun c => c.habit_id == hid)

/-- Outcome of the HTTP POST to the local Ollama daemon inside `ask_coach`
(app.py lines 138-150), as the surrounding control flow distinguishes it:
either a response arrives (its status code together with the `response` field
of the JSON body, the empty string standing for the `.get` default when the
field is absent), or one of the exceptions the handlers catch was raised. -/
inductive ReqOutcome where
  | success (status : Nat) (text : String)
  | connectionError
  | timeoutError
  | importError
  | otherError (msg : String)
deriving Repr, DecidableEq

/-- Coach client `ask_coach(prompt, model)` (app.py lines 129-167).  The
outcome of the underlying request is passed explicitly so the function stays
pure; the apostrophes of the source messages are written as \x27. -/
def ask_coach (prompt model : String) (o : ReqOutcome) : String :=
  match o with
  | .success status text =>
    if status = 200 then strip text
    else if status = 404 then
      "⚠️ Model \x27" ++ model ++ "\x27 not found. Install it with: ollama pull " ++ model
    else
      "⚠️ Ollama returned error " ++ toString status ++ ". Is Ollama running?"
  | .connectionError =>
    "⚠️ Cannot connect to Ollama. currently running on local pc only not in cloud."
  | .timeoutError => "⚠️ Response timeout. Try a faster model like \x27tinyllama\x27"
  | .importError => "⚠️ \x27requests\x27 library not installed. Run: pip install requests"
  | .otherError msg => "⚠️ Error: " ++ msg

/-- Remediation command for a missing model, as shown in the 404 message and
in the setup panel (app.py lines 156 and 348). -/
def remediationCmd (model : String) : String := "ollama pull " ++ model

/-- Appending strings is associative (used to split the 404 message around
the remediation command). -/
theorem strAppend_assoc (a b c : String) : a ++ b ++ c = a ++ (b ++ c) := by
  cases a with
  | mk da =>
    cases b with
    | mk db =>
      cases c with
      | mk dc => exact congrArg String.mk (List.append_assoc da db dc)

/-- A string of length zero is the empty string. -/
theorem strLength_zero (a : String) (h : a.length = 0) : a = "" := by
  cases a with
  | mk d =>
    have hd : d = [] := List.length_eq_zero.mp h
    rw [hd]

/-- An append whose left part is non-empty is non-empty. -/
theorem strAppend_ne_empty_left (a b : String) (h : a ≠ "") : a ++ b ≠ "" := by
  intro hc
  have hl := congrArg String.length hc
  rw [String.length_append] at hl
  have ha : a.length = 0 := by
    have : ("" : String).length = 0 := rfl
    omega
  exact h (strLength_zero a ha)

/-- Folding the completion counter over a history adds the number of
done rows to the accumulator. -/
theorem total_done_foldl (l : List CheckIn) (acc : Nat) :
    l.foldl (fun acc c => if c.done then acc + 1 else acc) acc
      = acc + (l.filter (fun c => c.done)).length := by
  induction l generalizing acc with
  | nil => simp
  | cons c rest ih =>
    cases h : c.done <;> simp [List.foldl, h, ih] <;> omega

/-- C3: total completions — `total_done` counts exactly the check-in rows of
the whole history whose done flag is true, independently of their days and of
any contiguity with today; done = false rows are never counted. -/
theorem total_done_counts_done (history : List CheckIn) :
    total_done history = (history.filter (fun c => c.done)).length := by
  simpa [total_done] using total_done_foldl history 0

/-- C9: empty-name validation — when the submitted habit name strips to the
empty string, the submit handler leaves the store unchanged and produces no
message at all. -/
theorem emptyName_rejected (s : Store) (habit_name frequency : String)
    (h : strip habit_name = "") :
    habitFormSubmit s habit_name frequency = (s, none) := by
  simp [habitFormSubmit, h]

/-- Witness for C9 at a whitespace-only name. -/
theorem emptyName_rejected_witness :
    habitFormSubmit ⟨[], []⟩ "   " "Daily" = (⟨[], []⟩, none) :=
  emptyName_rejected ⟨[], []⟩ "   " "Daily" (by decide)

/-- C2 evaluated at the failing input: mark habit 1 done on day 10 (a row with
done = true is created), toggle the box off (the row is mutated to
done = false), then toggle it back on.  The handler has no branch for a
checked box with an existing row, so the third interaction writes nothing:
exactly one row exists — the no-duplicate half of the claim holds — but its
done flag is still false, against the claim and the spec. -/
theorem toggle_on_after_off_leaves_done_false :
    (checkinHandler
      (checkinHandler
        (checkinHandler ⟨[⟨1, "Meditate", "Daily"⟩], []⟩ 1 10 true)
        1 10 false)
      1 10 true).checkins = [⟨1, 1, 10, false⟩] := by
  decide

/-- C6 counterexample: on a successful HTTP 200 outcome whose generated text
is empty, `ask_coach` returns the empty string itself — no message indicating
that no response was produced is ever built. -/
theorem emptyText_returns_empty_string :
    ask_coach "p" "llama2" (ReqOutcome.success 200 "") = "" := by
  decide

/-- C6 amended: on a successful HTTP 200 outcome the coach client returns the
stripped response text unchanged — in particular the empty string when the
text is empty or whitespace-only; the no-response messaging is left to the
caller (app.py lines 336-341 treat a falsy reply as an error). -/
theorem emptyText_passthrough (prompt model text : String) :
    ask_coach prompt model (ReqOutcome.success 200 text) = strip text := by
  rfl

/-- C5 counterexample: empty response text is one of the failure modes the
claim enumerates, yet for it `ask_coach` hands back a string of length zero —
not a descriptive string. -/
theorem emptyText_not_descriptive :
    (ask_coach "p" "tinyllama" (ReqOutcome.success 200 " ")).length = 0 := by
  decide

/-- C5 amended: the coach client is total — every outcome of the request is
turned into a returned string, never an unhandled fault; and every outcome
other than an HTTP 200 success (whose stripped text is passed through,
possibly empty) yields a non-empty diagnostic message. -/
theorem ask_coach_total (prompt model : String) (o : ReqOutcome) :
    (∃ text, o = ReqOutcome.success 200 text ∧
        ask_coach prompt model o = strip text) ∨
    ask_coach prompt model o ≠ "" := by
  cases o with
  | success status text =>
    by_cases h200 : status = 200
    · subst h200
      exact Or.inl ⟨text, rfl, rfl⟩
    · right
      by_cases h404 : status = 404
      · subst h404
        show ("⚠️ Model \x27" ++ model ++ "\x27 not found. Install it with: ollama pull "
          ++ model) ≠ ""
        exact strAppend_ne_empty_left _ _
          (strAppend_ne_empty_left _ _ (strAppend_ne_empty_left _ _ (by decide)))
      · have hmsg : ask_coach prompt model (ReqOutcome.success status text)
            = "⚠️ Ollama returned error " ++ toString status ++ ". Is Ollama running?" := by
          simp [ask_coach, h200, h404]
        rw [hmsg]
        exact strAppend_ne_empty_left _ _ (strAppend_ne_empty_left _ _ (by decide))
  | connectionError =>
    refine Or.inr ?_
    show ("⚠️ Cannot connect to Ollama. currently running on local pc only not in cloud."
      : String) ≠ ""
    decide
  | timeoutError =>
    refine Or.inr ?_
    show ("⚠️ Response timeout. Try a faster model like \x27tinyllama\x27" : String) ≠ ""
    decide
  | importError =>
    refine Or.inr ?_
    show ("⚠️ \x27requests\x27 library not installed. Run: pip install requests" : String) ≠ ""
    decide
  | otherError msg =>
    refine Or.inr ?_
    show ("⚠️ Error: " ++ msg) ≠ ""
    exact strAppend_ne_empty_left _ _ (by decide)

/-- C7: model-not-found — whenever the request comes back with HTTP 404, the
message handed back ends with the exact remediation command
`ollama pull <model>` for the requested model, hence contains it. -/
theorem notFound_message_contains_remediation (prompt model text : String) :
    ∃ msgStart, ask_coach prompt model (ReqOutcome.success 404 text)
      = msgStart ++ remediationCmd model := by
  refine ⟨"⚠️ Model \x27" ++ model ++ "\x27 not found. Install it with: ", ?_⟩
  show "⚠️ Model \x27" ++ model ++ "\x27 not found. Install it with: ollama pull "
    ++ model = _
  have hlit : ("\x27 not found. Install it with: " : String) ++ "ollama pull "
      = "\x27 not found. Install it with: ollama pull " := by decide
  simp only [remediationCmd]
  rw [← hlit]
  simp only [strAppend_assoc]

/-- C8: delete cascade — deleting a habit that is present in the store removes
every check-in row referencing it, so a subsequent `listCheckIns` for that id
is empty, and the habit row itself is gone as well. -/
theorem delete_cascade (s : Store) (hid : Int)
    (hmem : ∃ hb ∈ s.habits, hb.id = hid) :
    listCheckIns (deleteHabitHandler s hid) hid = [] ∧
    ∀ hb ∈ (deleteHabitHandler s hid).habits, hb.id ≠ hid := by
  constructor
  · rw [listCheckIns, deleteHabitHandler]
    simp [List.filter_filter]
  · intro hb hmemb
    rw [deleteHabitHandler] at hmemb
    simp only [List.mem_filter] at hmemb
    simpa using hmemb.2

/-- Witness for C8 on a one-habit store with two check-ins. -/
theorem delete_cascade_witness :
    listCheckIns
      (deleteHabitHandler ⟨[⟨1, "A", "Daily"⟩], [⟨1, 1, 5, true⟩, ⟨2, 1, 6, false⟩]⟩ 1) 1
      = [] :=
  (delete_cascade ⟨[⟨1, "A", "Daily"⟩], [⟨1, 1, 5, true⟩, ⟨2, 1, 6, false⟩]⟩ 1
    ⟨⟨1, "A", "Daily"⟩, by decide, by decide⟩).1

/-- C10: deletion frame — deleting one habit only touches rows carrying the
deleted id: every habit row with a different id and every check-in row with a
different habit_id survives, every surviving row comes from the original store
and carries a different id, and both surviving tables keep their original
order (they are sublists of the originals). -/
theorem delete_frame (s : Store) (hid : Int) :
    (∀ hb ∈ s.habits, hb.id ≠ hid → hb ∈ (deleteHabitHandler s hid).habits) ∧
    (∀ c ∈ s.checkins, c.habit_id ≠ hid → c ∈ (deleteHabitHandler s hid).checkins) ∧
    (∀ hb ∈ (deleteHabitHandler s hid).habits, hb ∈ s.habits ∧ hb.id ≠ hid) ∧
    (∀ c ∈ (deleteHabitHandler s hid).checkins, c ∈ s.checkins ∧ c.habit_id ≠ hid) ∧
    (deleteHabitHandler s hid).habits.Sublist s.habits ∧
    (deleteHabitHandler s hid).checkins.Sublist s.checkins := by
  refine ⟨?_, ?_, ?_, ?_, ?_, ?_⟩
  · intro hb h1 h2
    simp only [deleteHabitHandler, List.mem_filter]
    simpa using ⟨h1, h2⟩
  · intro c h1 h2
    simp only [deleteHabitHandler, List.mem_filter]
    simpa using ⟨h1, h2⟩
  · intro hb hmemb
    simp only [deleteHabitHandler, List.mem_filter] at hmemb
    simpa using hmemb
  · intro c hmemb
    simp only [deleteHabitHandler, List.mem_filter] at hmemb
    simpa using hmemb
  · exact List.filter_sublist _
  · exact List.filter_sublist _

/-- Witness for C10: deleting habit 1 keeps habit 2 in the store. -/
theorem delete_frame_witness :
    (⟨2, "B", "Weekly"⟩ : Habit) ∈
      (deleteHabitHandler
        ⟨[⟨1, "A", "Daily"⟩, ⟨2, "B", "Weekly"⟩], [⟨1, 1, 5, true⟩, ⟨2, 2, 5, true⟩]⟩
        1).habits :=
  (delete_frame
    ⟨[⟨1, "A", "Daily"⟩, ⟨2, "B", "Weekly"⟩], [⟨1, 1, 5, true⟩, ⟨2, 2, 5, true⟩]⟩ 1).1
    ⟨2, "B", "Weekly"⟩ (by decide) (by decide)

/-- The weekly-grid cell lookup agrees with the existence of a done check-in
for the exact (habit, day) pair, whenever the table holds at most one row per
(habit_id, day) pair — the invariant the application maintains. -/
theorem dayCell_iff (l : List CheckIn) (hid d : Int)
    (huniq : l.Pairwise (fun a b => ¬(a.habit_id = b.habit_id ∧ a.day = b.day))) :
    dayCell l hid d = true ↔ ∃ c ∈ l, c.habit_id = hid ∧ c.day = d ∧ c.done = true := by
  induction l with
  | nil => simp [dayCell]
  | cons a rest ih =>
    rcases List.pairwise_cons.mp huniq with ⟨hhead, htail⟩
    by_cases hpa : (a.habit_id == hid && a.day == d) = true
    · have hpa2 := hpa
      simp only [Bool.and_eq_true, beq_iff_eq] at hpa2
      obtain ⟨hah, had⟩ := hpa2
      have hfind : dayCell (a :: rest) hid d = a.done := by
        unfold dayCell
        rw [List.find?_cons_of_pos (p := fun c => c.habit_id == hid && c.day == d) rest hpa]
      rw [hfind]
      constructor
      · intro hdone
        exact ⟨a, List.mem_cons_self a rest, hah, had, hdone⟩
      · rintro ⟨c, hcm, hch, hcd, hcdone⟩
        rcases List.mem_cons.mp hcm with rfl | hct
        · exact hcdone
        · exact absurd ⟨hah.trans hch.symm, had.trans hcd.symm⟩ (hhead c hct)
    · have hfind : dayCell (a :: rest) hid d = dayCell rest hid d := by
        unfold dayCell
        rw [List.find?_cons_of_neg (p := fun c => c.habit_id == hid && c.day == d) rest hpa]
      rw [hfind, ih htail]
      constructor
      · rintro ⟨c, hcm, hc⟩
        exact ⟨c, List.mem_cons_of_mem a hcm, hc⟩
      · rintro ⟨c, hcm, hch, hcd, hcdone⟩
        rcases List.mem_cons.mp hcm with rfl | hct
        · exact absurd (by simp [hch, hcd]) hpa
        · exact ⟨c, hct, hch, hcd, hcdone⟩

/-- C4: weekly grid — under the data-model invariant of at most one check-in
row per (habit_id, day) pair, the grid has exactly 7 entries, entry i
(0-based, oldest first) stands for calendar day today - 6 + i, and it is true
exactly when a check-in row for that habit and that exact day exists with
done = true; a missing row and a done = false row both yield false. -/
theorem weekGrid_spec (checkins : List CheckIn) (hid today : Int)
    (huniq : checkins.Pairwise (fun a b => ¬(a.habit_id = b.habit_id ∧ a.day = b.day))) :
    (weekGrid checkins hid today).length = 7 ∧
    ∀ i : Nat, i < 7 →
      ((weekGrid checkins hid today).getD i false = true ↔
        ∃ c ∈ checkins, c.habit_id = hid ∧ c.day = today - 6 + (i : Int) ∧ c.done = true) := by
  have hwg : weekGrid checkins hid today
      = [dayCell checkins hid (today - 6), dayCell checkins hid (today - 5),
         dayCell checkins hid (today - 4), dayCell checkins hid (today - 3),
         dayCell checkins hid (today - 2), dayCell checkins hid (today - 1),
         dayCell checkins hid (today - 0)] := rfl
  refine ⟨by rw [hwg]; rfl, ?_⟩
  intro i hi
  interval_cases i
  · simpa [hwg, show today - 6 + ((0 : Nat) : Int) = today - 6 from by push_cast; ring]
      using dayCell_iff checkins hid (today - 6) huniq
  · simpa [hwg, show (today - 6 + 1 : Int) = today - 5 from by ring]
      using dayCell_iff checkins hid (today - 5) huniq
  · simpa [hwg, show (today - 6 + 2 : Int) = today - 4 from by ring]
      using dayCell_iff checkins hid (today - 4) huniq
  · simpa [hwg, show (today - 6 + 3 : Int) = today - 3 from by ring]
      using dayCell_iff checkins hid (today - 3) huniq
  · simpa [hwg, show (today - 6 + 4 : Int) = today - 2 from by ring]
      using dayCell_iff checkins hid (today - 2) huniq
  · simpa [hwg, show (today - 6 + 5 : Int) = today - 1 from by ring]
      using dayCell_iff checkins hid (today - 1) huniq
  · simpa [hwg, show (today - 6 + 6 : Int) = today from by ring]
      using dayCell_iff checkins hid (today - 0) huniq

/-- Witness for C4: the last (newest) entry of the grid reflects today's
done check-in. -/
theorem weekGrid_spec_witness :
    (weekGrid [⟨1, 1, 10, true⟩, ⟨2, 1, 9, false⟩] 1 10).getD 6 false = true ↔
      ∃ c ∈ ([⟨1, 1, 10, true⟩, ⟨2, 1, 9, false⟩] : List CheckIn),
        c.habit_id = 1 ∧ c.day = 10 - 6 + ((6 : Nat) : Int) ∧ c.done = true :=
  (weekGrid_spec [⟨1, 1, 10, true⟩, ⟨2, 1, 9, false⟩] 1 10 (by decide)).2 6 (by decide)

/-- On a strictly day-descending list whose days do not exceed today, the
streak loop returns exactly the length of the done chain ending today: a
done = true row on each of the k days ending today, while any row on the day
just before the chain carries done = false. -/
theorem streakLoop_spec (k : Nat) :
    ∀ (today : Int) (l : List CheckIn),
      l.Pairwise (fun a b => b.day < a.day) →
      (∀ c ∈ l, c.day ≤ today) →
      (∀ i : Nat, i < k → ∃ c ∈ l, c.day = today - (i : Int) ∧ c.done = true) →
      (∀ c ∈ l, c.day = today - (k : Int) → c.done = false) →
      streakLoop today l = k := by
  induction k with
  | zero =>
    intro today l _ _ _ hbreak
    cases l with
    | nil => rfl
    | cons a rest =>
      show (if a.day = today ∧ a.done = true then streakLoop (today - 1) rest + 1 else 0) = 0
      rw [if_neg]
      rintro ⟨h1, h2⟩
      have hb := hbreak a (List.mem_cons_self a rest) (by simpa using h1)
      rw [hb] at h2
      cases h2
  | succ k ih =>
    intro today l hsort hle hchain hbreak
    obtain ⟨c0, hc0m, hc0day, hc0done⟩ := hchain 0 (Nat.succ_pos k)
    have hc0day2 : c0.day = today := by simpa using hc0day
    cases l with
    | nil => exact absurd hc0m (List.not_mem_nil c0)
    | cons a rest =>
      rcases List.pairwise_cons.mp hsort with ⟨hheadlt, htail⟩
      have hc0a : c0 = a := by
        rcases List.mem_cons.mp hc0m with h | h
        · exact h
        · exfalso
          have h1 := hheadlt c0 h
          have h2 := hle a (List.mem_cons_self a rest)
          omega
      subst hc0a
      show (if c0.day = today ∧ c0.done = true then streakLoop (today - 1) rest + 1 else 0)
        = k + 1
      rw [if_pos ⟨hc0day2, hc0done⟩]
      have hrest : streakLoop (today - 1) rest = k := by
        apply ih (today - 1) rest htail
        · intro c hc
          have h1 := hheadlt c hc
          omega
        · intro i hik
          obtain ⟨c, hcm, hcday, hcdone⟩ := hchain (i + 1) (Nat.succ_lt_succ hik)
          have hcd : c.day = today - 1 - (i : Int) := by
            rw [hcday]
            push_cast
            ring
          rcases List.mem_cons.mp hcm with rfl | hcr
          · exfalso
            rw [hc0day2] at hcday
            omega
          · exact ⟨c, hcr, hcd, hcdone⟩
        · intro c hcm hcday
          apply hbreak c (List.mem_cons_of_mem c0 hcm)
          rw [hcday]
          push_cast
          ring
      rw [hrest]

/-- C1 (amended): chain property for histories with at most one check-in per
day, provided additionally that no check-in is dated after today: if a
done = true check-in exists for each of the last k consecutive calendar days
ending today, and the day immediately before that chain is either missing
from the history or carries done = false, then the computed streak is exactly
k.  For k = 0 this specializes to: a history with no done = true check-in for
today yields streak 0.  Without the no-future-check-in proviso the claim as
stated fails — see the counterexample theorem. -/
theorem streak_chain (history : List CheckIn) (today : Int) (k : Nat)
    (huniq : history.Pairwise (fun a b => a.day ≠ b.day))
    (hle : ∀ c ∈ history, c.day ≤ today)
    (hchain : ∀ i : Nat, i < k → ∃ c ∈ history, c.day = today - (i : Int) ∧ c.done = true)
    (hbreak : ∀ c ∈ history, c.day = today - (k : Int) → c.done = false) :
    streak history today = k := by
  have hperm : (sortByDayDesc history).Perm history := List.perm_insertionSort dayGe history
  have hsorted : (sortByDayDesc history).Pairwise dayGe :=
    List.sorted_insertionSort dayGe history
  have huniq2 : (sortByDayDesc history).Pairwise (fun a b => a.day ≠ b.day) :=
    (hperm.pairwise_iff (fun h => Ne.symm h)).mpr huniq
  have hstrict : (sortByDayDesc history).Pairwise (fun a b => b.day < a.day) :=
    (hsorted.and huniq2).imp (fun h => lt_of_le_of_ne h.1 (Ne.symm h.2))
  have hle2 : ∀ c ∈ sortByDayDesc history, c.day ≤ today :=
    fun c hc => hle c (hperm.mem_iff.mp hc)
  have hchain2 : ∀ i : Nat, i < k →
      ∃ c ∈ sortByDayDesc history, c.day = today - (i : Int) ∧ c.done = true := by
    intro i hik
    obtain ⟨c, hcm, hrest⟩ := hchain i hik
    exact ⟨c, hperm.mem_iff.mpr hcm, hrest⟩
  have hbreak2 : ∀ c ∈ sortByDayDesc history, c.day = today - (k : Int) → c.done = false :=
    fun c hc hd => hbreak c (hperm.mem_iff.mp hc) hd
  show streakLoop today (sortByDayDesc history) = k
  exact streakLoop_spec k today (sortByDayDesc history) hstrict hle2 hchain2 hbreak2

/-- C1 counterexample: a history containing a future-dated check-in satisfies
every hypothesis of the claim as stated with k = 1 — at most one check-in per
day, a done = true check-in for today (day 10), and no record at all for the
day before (day 9) — yet the computed streak is 0, not 1: the descending scan
meets the future day (11) first and stops immediately. -/
theorem streak_chain_counterexample :
    ([⟨1, 1, 11, true⟩, ⟨2, 1, 10, true⟩] : List CheckIn).Pairwise
        (fun a b => a.day ≠ b.day) ∧
    (∀ i : Nat, i < 1 → ∃ c ∈ ([⟨1, 1, 11, true⟩, ⟨2, 1, 10, true⟩] : List CheckIn),
        c.day = 10 - (i : Int) ∧ c.done = true) ∧
    (∀ c ∈ ([⟨1, 1, 11, true⟩, ⟨2, 1, 10, true⟩] : List CheckIn),
        c.day = 10 - (1 : Int) → c.done = false) ∧
    streak [⟨1, 1, 11, true⟩, ⟨2, 1, 10, true⟩] 10 = 0 := by
  refine ⟨by decide, by decide, by decide, by decide⟩

/-- Witness for C1: three done check-ins on days 10, 9 and 7 give streak 2 on
day 10 — the gap at day 8 ends the chain. -/
theorem streak_chain_witness :
    streak [⟨1, 1, 10, true⟩, ⟨2, 1, 9, true⟩, ⟨3, 1, 7, true⟩] 10 = 2 :=
  streak_chain [⟨1, 1, 10, true⟩, ⟨2, 1, 9, true⟩, ⟨3, 1, 7, true⟩] 10 2
    (by decide) (by decide) (by decide) (by decide)
